import Mathlib

/-!
Verification of the games-catalogy backend services.

The development shallowly embeds the JavaScript services of the repository:
the Google-Sheets-backed record store (services/sheetsService.js), the IGDB
search client with its cached OAuth token (services/igdbService.js), the
in-memory TTL cache (CacheService), and the Joi request validation
(middleware/validation.js).  Remote calls are modelled as explicit request
traces, the sheet as a list of rows, and the clock as an integer parameter
standing for Date.now() in milliseconds.
-/

namespace GamesCatalog

/-! ## Sheet model

A cell is the string content the values API returns; the sheet grid is a
header row followed by the data rows of the managed range Jogos!A2:I. -/

abbrev Cell := String

abbrev SheetRow := List Cell

/-- One catalog record as produced by SheetsService.getAll: the positional id
plus values of columns A..I. -/
structure GameRecord where
  id : Nat
  plataforma : String
  nome : String
  dataLancamento : String
  genero : String
  status : String
  tempo : String
  inicio : String
  fim : String
  nota : String
  deriving Repr, DecidableEq, Inhabited

/-- The remote spreadsheet as the service observes it: the header row at
grid position 0, the data rows of range A2:I below it, and whether the
spreadsheet metadata contains a sheet titled SHEET_NAME (needed to resolve
the sheetId during delete). -/
structure SheetsState where
  header : SheetRow
  data : List SheetRow
  sheetExists : Bool
  deriving Repr, DecidableEq

/-- Requests the service issues against the Sheets API. -/
inductive SheetsOp where
  | valuesGet
  | spreadsheetGet
  | appendRow (row : SheetRow)
  | deleteRows (startIndex endIndex : Nat)
  deriving Repr, DecidableEq

/-- Whether a request mutates the table (values.append or the
batchUpdate deleteDimension request); values.get and spreadsheets.get are
pure reads. -/
def SheetsOp.mutates : SheetsOp → Bool
  | .valuesGet => false
  | .spreadsheetGet => false
  | .appendRow _ => true
  | .deleteRows _ _ => true

/-- Semantics of the deleteDimension ROWS request on the grid rows:
remove the 0-based grid rows in [startIndex, endIndex). -/
def deleteDimensionRows (rows : List SheetRow) (startIndex endIndex : Nat) : List SheetRow :=
  rows.take startIndex ++ rows.drop endIndex

/-- Effect of one request on the observed sheet. -/
def applySheetsOp (st : SheetsState) : SheetsOp → SheetsState
  | .valuesGet => st
  | .spreadsheetGet => st
  | .appendRow row => { st with data := st.data ++ [row] }
  | .deleteRows startIndex endIndex =>
      let grid := deleteDimensionRows (st.header :: st.data) startIndex endIndex
      { st with header := grid.headD [], data := grid.tail }

def applySheetsOps (st : SheetsState) (ops : List SheetsOp) : SheetsState :=
  ops.foldl applySheetsOp st

/-- games = rows.map((row, index) => ...id: index + 2, plataforma: row[0]...);
row[j] yields undefined past the end of a short row and the JS fallback
row[j] or-else the empty string maps both a missing and an empty cell to
the empty string. -/
def rowToRecord (id : Nat) (row : SheetRow) : GameRecord :=
  { id := id
    plataforma := row.getD 0 ""
    nome := row.getD 1 ""
    dataLancamento := row.getD 2 ""
    genero := row.getD 3 ""
    status := row.getD 4 ""
    tempo := row.getD 5 ""
    inicio := row.getD 6 ""
    fim := row.getD 7 ""
    nota := row.getD 8 "" }

/-- JS Array.prototype.map with its index argument, as used by getAll. -/
def mapRowsWithIndex (f : Nat → SheetRow → GameRecord) : Nat → List SheetRow → List GameRecord
  | _, [] => []
  | i, row :: rest => f i row :: mapRowsWithIndex f (i + 1) rest

/-- SheetsService.getAll: read the data range A2:I and map each row at
0-based offset index to a record with id = index + 2. -/
def SheetsService.getAll (st : SheetsState) : List GameRecord :=
  mapRowsWithIndex (fun i row => rowToRecord (i + 2) row) 0 st.data

/-- The JS default pattern value or-else defaultVal for an optional string
field: undefined and the empty string both fall back to the default. -/
def jsOr (v : Option String) (defaultVal : String) : String :=
  match v with
  | none => defaultVal
  | some s => if s = "" then defaultVal else s

/-- The nota field of a request body: a JSON number, null, the empty
string, or absent (the Joi schema allows exactly these shapes).  Numbers
are modelled as integers; no claim depends on fractional notas. -/
inductive NotaInput where
  | omitted
  | nullv
  | empty
  | num (n : Int)
  deriving Repr, DecidableEq

/-- gameData.nota or-else the empty string: undefined, null, the empty
string and the number 0 are all falsy in JS, so each of them is stored as
the empty cell; a nonzero number is stored and read back as its decimal
rendering. -/
def notaCell : NotaInput → Cell
  | .omitted => ""
  | .nullv => ""
  | .empty => ""
  | .num n => if n = 0 then "" else toString n

/-- A request body for add and update.  String fields are present or
absent; the Joi schema rejects non-string JSON values for them, and the
routes only reach the service after validation. -/
structure GameInput where
  plataforma : Option String
  nome : Option String
  dataLancamento : Option String
  genero : Option String
  status : Option String
  tempo : Option String
  inicio : Option String
  fim : Option String
  nota : NotaInput
  deriving Repr, DecidableEq

/-- The single row SheetsService.add appends: required fields are passed
through unchanged (undefined is serialized as an empty cell by the API),
optional fields get the JS or-else defaults from the source. -/
def buildRow (g : GameInput) : SheetRow :=
  [ g.plataforma.getD "",
    g.nome.getD "",
    jsOr g.dataLancamento "",
    jsOr g.genero "",
    jsOr g.status "Não iniciado",
    jsOr g.tempo "",
    jsOr g.inicio "",
    jsOr g.fim "",
    notaCell g.nota ]

/-- SheetsService.add: one values.append request carrying the 9 cells. -/
def SheetsService.add (g : GameInput) : List SheetsOp :=
  [.appendRow (buildRow g)]

inductive SheetsError where
  | notFound
  | sheetMissing
  deriving Repr, DecidableEq

/-- SheetsService.delete: re-read the data range, compute
rowIndex = gameId - 2 and fail with the not-found error when it lies
outside [0, rows.length); then resolve the sheetId from the spreadsheet
metadata (failing when no sheet has the configured title); finally issue
the deleteDimension request for grid rows [gameId - 1, gameId).
The grid row gameId - 1 is the data row at offset gameId - 2 because the
header occupies grid row 0.  With a natural-number gameId the JS test
rowIndex < 0 becomes gameId < 2. -/
def SheetsService.delete (st : SheetsState) (gameId : Nat) :
    Except SheetsError Unit × List SheetsOp :=
  let rows := st.data
  if 2 ≤ gameId ∧ gameId - 2 < rows.length then
    if st.sheetExists then
      (.ok (), [.valuesGet, .spreadsheetGet, .deleteRows (gameId - 1) gameId])
    else
      (.error .sheetMissing, [.valuesGet, .spreadsheetGet])
  else
    (.error .notFound, [.valuesGet])

/-- cellStr.replace of every double quote by two double quotes, modelled
character by character (the JS call is a global single-character regex
replace). -/
def doubleQuotes (s : String) : String :=
  (s.toList.flatMap (fun c => if c = '"' then ['"', '"'] else [c])).asString

/-- cellStr.includes with a single-character needle is character
membership. -/
def includesChar (s : String) (c : Char) : Bool :=
  s.toList.contains c

/-- CSV serialization of one cell: quote and double embedded quotes
exactly when the cell contains a comma, a newline or a double quote. -/
def escapeCell (cell : Cell) : String :=
  if includesChar cell ',' || includesChar cell '\n' || includesChar cell '"' then
    "\"" ++ doubleQuotes cell ++ "\""
  else cell

/-- One CSV line: escaped cells joined with commas. -/
def rowToCsv (row : SheetRow) : String :=
  String.intercalate "," (row.map escapeCell)

/-- CSV text of a list of grid rows: lines joined with a newline. -/
def exportRows (rows : List SheetRow) : String :=
  String.intercalate "\n" (rows.map rowToCsv)

/-- SheetsService.exportAsCSV: reads range A1:I, so the header row comes
first, followed by the data rows. -/
def SheetsService.exportAsCSV (st : SheetsState) : String :=
  exportRows (st.header :: st.data)

/-! ## IGDB search client

Time is an integer (Date.now() in milliseconds); the credential exchange
and the upstream search are oracles passed as parameters; the network
requests a call actually issues are returned as a trace. -/

/-- The mutable fields of IGDBService: this.token and this.tokenExpiry,
both initialized to null. -/
structure IGDBState where
  token : Option String
  tokenExpiry : Option Int
  deriving Repr, DecidableEq

/-- Outcome of one POST to the Twitch OAuth endpoint. -/
inductive ExchangeOutcome where
  | success (accessToken : String) (expiresIn : Int)
  | failure (msg : String)
  deriving Repr, DecidableEq

/-- Network requests issued by the client. -/
inductive NetRequest where
  | tokenExchange
  | searchPost (body : String)
  deriving Repr, DecidableEq

/-- The guard this.token and-also this.tokenExpiry > Date.now(): a null or
empty token is falsy, a null expiry makes the comparison false. -/
def tokenIsFresh (st : IGDBState) (now : Int) : Bool :=
  (match st.token with
   | some t => t ≠ ""
   | none => false) &&
  (match st.tokenExpiry with
   | some e => now < e
   | none => false)

/-- IGDBService.getToken: return the cached token when the guard holds,
otherwise perform one client-credentials exchange; on success store the
token and expiry Date.now() + expires_in * 1000 (expires_in is in
seconds), on failure rethrow with the auth message and leave the cached
state untouched. -/
def IGDBService.getToken (st : IGDBState) (now : Int) (outcome : ExchangeOutcome) :
    Except String String × IGDBState × List NetRequest :=
  if tokenIsFresh st now then
    (.ok (st.token.getD ""), st, [])
  else
    match outcome with
    | .success tok exp =>
        (.ok tok, { token := some tok, tokenExpiry := some (now + exp * 1000) },
         [.tokenExchange])
    | .failure m =>
        (.error ("Falha na autenticação IGDB: " ++ m), st, [.tokenExchange])

/-- The query argument of searchGames as a JS value: absent, null, a
string, or some non-string value. -/
inductive QueryInput where
  | undef
  | nullv
  | str (s : String)
  | nonString
  deriving Repr, DecidableEq

/-- The rejection guard not-query or typeof query is not string accepts
exactly the nonempty strings. -/
def queryOk : QueryInput → Bool
  | .str s => s ≠ ""
  | _ => false

/-- query.replace of every double quote by backslash-quote, modelled
character by character (global single-character regex replace). -/
def escapeQuery (s : String) : String :=
  String.join (s.toList.map (fun c => if c = '"' then "\\\"" else String.singleton c))

/-- The upstream query text with the escaped name interpolated. -/
def igdbQueryBody (escaped : String) : String :=
  "search \"" ++ escaped ++
    "\"; fields name, first_release_date, platforms.name, genres.name; limit 10;"

inductive SearchError where
  | validation (msg : String)
  | auth (msg : String)
  | upstream (msg : String)
  deriving Repr, DecidableEq

/-- IGDBService.searchGames over an opaque upstream payload type: reject
bad queries before any network activity, then obtain a token (possibly
via one exchange), then POST the interpolated query; failures of the
exchange or of the search propagate to the caller. -/
def IGDBService.searchGames {α : Type} (st : IGDBState) (q : QueryInput) (now : Int)
    (exchange : ExchangeOutcome) (upstream : Except String α) :
    Except SearchError α × IGDBState × List NetRequest :=
  match q with
  | .str s =>
      if s = "" then
        (.error (.validation "Query deve ser uma string não vazia"), st, [])
      else
        match IGDBService.getToken st now exchange with
        | (.ok _tok, st', reqs) =>
            let body := igdbQueryBody (escapeQuery s)
            match upstream with
            | .ok payload => (.ok payload, st', reqs ++ [.searchPost body])
            | .error m => (.error (.upstream m), st', reqs ++ [.searchPost body])
        | (.error m, st', reqs) => (.error (.auth m), st', reqs)
  | _ => (.error (.validation "Query deve ser uma string não vazia"), st, [])

/-! ## TTL cache

CacheService wraps node-cache: entries carry an absolute expiry timestamp
in milliseconds, with 0 meaning no expiry (the node-cache convention for
a ttl of 0); stdTTL is the constructor default of 300 seconds.  get checks
expiry lazily and removes an expired entry before reporting a miss. -/

structure CacheEntry (α : Type) where
  value : α
  t : Int
  deriving Repr, DecidableEq

structure CacheState (α : Type) where
  stdTTL : Int
  entries : List (String × CacheEntry α)
  deriving Repr, DecidableEq

/-- Absolute expiry for a ttl in seconds set at time now. -/
def ttlToExpiry (now ttlSeconds : Int) : Int :=
  if ttlSeconds = 0 then 0 else now + ttlSeconds * 1000

/-- CacheService.set: node-cache overwrites any previous entry for the
key; an explicit ttl wins, otherwise stdTTL applies. -/
def cacheSet {α : Type} (st : CacheState α) (now : Int) (key : String) (v : α)
    (ttl : Option Int) : CacheState α :=
  { st with
    entries := (key, ⟨v, ttlToExpiry now (ttl.getD st.stdTTL)⟩) ::
      st.entries.filter (fun p => p.1 ≠ key) }

/-- CacheService.get: a hit returns the stored value; an entry whose
expiry is nonzero and lies strictly before now is expired, deleted
lazily, and reported as a miss. -/
def cacheGet {α : Type} (st : CacheState α) (now : Int) (key : String) :
    Option α × CacheState α :=
  match st.entries.lookup key with
  | none => (none, st)
  | some e =>
      if e.t ≠ 0 ∧ e.t < now then
        (none, { st with entries := st.entries.filter (fun p => p.1 ≠ key) })
      else
        (some e.value, st)

/-- CacheService.getOrFetch: return the cached value when get hits;
otherwise invoke the fetcher (its outcome is the fetchResult parameter,
and the returned count says how often it ran), store a successful result
under the key, and propagate a failure without storing anything. -/
def CacheService.getOrFetch {α ε : Type} (st : CacheState α) (now : Int) (key : String)
    (fetchResult : Except ε α) (ttl : Option Int) :
    Except ε α × CacheState α × Nat :=
  match cacheGet st now key with
  | (some v, st') => (.ok v, st', 0)
  | (none, st') =>
      match fetchResult with
      | .ok v => (.ok v, cacheSet st' now key v ttl, 1)
      | .error e => (.error e, st', 1)

/-! ## Joi schema validation

middleware/validation.js validates req.body against gameSchema with the
Joi defaults, in particular abortEarly, so the reported details contain
only the first violated constraint in schema key order. -/

/-- The whitespace characters of the ECMAScript WhiteSpace and
LineTerminator productions: tab, line feed, vertical tab, form feed,
carriage return, space, no-break space, Ogham space mark, the en-quad
through hair-space range U+2000..U+200A, line and paragraph separators,
narrow no-break space, medium mathematical space, ideographic space, and
the BOM.  Both the regex class \s and String.prototype.trim use exactly
this set. -/
def jsWhitespaceChars : List Char :=
  ['\t', '\n', '\x0b', '\x0c', '\r', ' ', '\u00A0', '\u1680',
   '\u2000', '\u2001', '\u2002', '\u2003', '\u2004', '\u2005', '\u2006',
   '\u2007', '\u2008', '\u2009', '\u200A', '\u2028', '\u2029', '\u202F',
   '\u205F', '\u3000', '\uFEFF']

/-- JS regex \s membership for one character. -/
def isJsSpace (c : Char) : Bool :=
  jsWhitespaceChars.contains c

/-- The optional group (\d+h)? with the ignore-case flag: consume a
maximal nonempty digit run followed by h or H, otherwise consume
nothing.  Greediness loses no match because a group ending in h cannot
feed the later groups, which contain no h. -/
def matchHourPrefix (cs : List Char) : List Char :=
  match cs.takeWhile Char.isDigit, cs.dropWhile Char.isDigit with
  | _ :: _, c :: rest => if c = 'h' ∨ c = 'H' then rest else cs
  | _, _ => cs

/-- The trailing anchored group (\d+m?)?$ with the ignore-case flag: the
remaining input must be empty, or a nonempty digit run, or a nonempty
digit run followed by a final m or M. -/
def matchMinGroupAtEnd (cs : List Char) : Bool :=
  match cs.takeWhile Char.isDigit, cs.dropWhile Char.isDigit with
  | [], _ => cs.isEmpty
  | _ :: _, [] => true
  | _ :: _, [c] => c = 'm' ∨ c = 'M'
  | _, _ => false

/-- The anchored tempo regex of the schema, (\d+h)?\s*(\d+m?)? with the
ignore-case flag, run as the deterministic matcher it denotes: the
optional hour group, then whitespace, then the optional minute group up
to the end of the string. -/
def tempoPattern (s : String) : Bool :=
  matchMinGroupAtEnd ((matchHourPrefix s.toList).dropWhile isJsSpace)

/-- Joi acceptance of the tempo field value: allow of the empty string,
otherwise the pattern must match. -/
def tempoFieldAccepted (s : String) : Bool :=
  s = "" || tempoPattern s

/-- Modelled from the spec: the Joi isoDate check is library behaviour
not present under src/; it is modelled as the date-only ISO form
YYYY-MM-DD.  No claim depends on which strings pass this check. -/
def isIsoDate (s : String) : Bool :=
  match s.toList with
  | [y1, y2, y3, y4, '-', m1, m2, '-', d1, d2] =>
      y1.isDigit && y2.isDigit && y3.isDigit && y4.isDigit &&
      m1.isDigit && m2.isDigit && d1.isDigit && d2.isDigit
  | _ => false

/-- JS String.prototype.trim, modelled on the character list: leading and
trailing whitespace removed.  Joi applies it before the emptiness and
length checks. -/
def trimString (s : String) : String :=
  (((s.toList.dropWhile isJsSpace).reverse).dropWhile isJsSpace).reverse.asString

def statusValues : List String :=
  ["Não iniciado", "Jogando", "Pausado", "Concluído", "Dropado"]

/-- JS string length: the number of UTF-16 code units, so a character
above U+FFFF counts as a surrogate pair of two units.  The Joi max
constraint compares this length. -/
def utf16Length (s : String) : Nat :=
  (s.toList.map (fun c => if c.toNat < 0x10000 then 1 else 2)).sum

/-- plataforma: string, trim, required, max 100. -/
def plataformaError (v : Option String) : Option String :=
  match v with
  | none => some "\"plataforma\" is required"
  | some s =>
      let t := trimString s
      if t = "" then some "\"plataforma\" is not allowed to be empty"
      else if 100 < utf16Length t then
        some "\"plataforma\" length must be less than or equal to 100 characters long"
      else none

/-- nome: string, trim, required, max 200. -/
def nomeError (v : Option String) : Option String :=
  match v with
  | none => some "\"nome\" is required"
  | some s =>
      let t := trimString s
      if t = "" then some "\"nome\" is not allowed to be empty"
      else if 200 < utf16Length t then
        some "\"nome\" length must be less than or equal to 200 characters long"
      else none

/-- An optional isoDate field allowing the empty string. -/
def isoDateFieldError (name : String) (v : Option String) : Option String :=
  match v with
  | none => none
  | some s =>
      if s = "" then none
      else if isIsoDate s then none
      else some ("\"" ++ name ++ "\" must be in iso format")

/-- genero: optional string, allow empty, max 200. -/
def generoError (v : Option String) : Option String :=
  match v with
  | none => none
  | some s =>
      if s = "" then none
      else if 200 < utf16Length s then
        some "\"genero\" length must be less than or equal to 200 characters long"
      else none

/-- status: optional, must be one of the five enum values when present. -/
def statusError (v : Option String) : Option String :=
  match v with
  | none => none
  | some s =>
      if statusValues.contains s then none
      else some "\"status\" must be one of the allowed values"

/-- tempo: optional string, allow empty, pattern. -/
def tempoError (v : Option String) : Option String :=
  match v with
  | none => none
  | some s =>
      if tempoFieldAccepted s then none
      else some "\"tempo\" with value fails to match the required pattern"

/-- nota: optional number, min 0, max 10, allow null and empty. -/
def notaError (v : NotaInput) : Option String :=
  match v with
  | .omitted => none
  | .nullv => none
  | .empty => none
  | .num n =>
      if 0 ≤ n ∧ n ≤ 10 then none
      else some "\"nota\" must be between 0 and 10"

/-- Every violated constraint of the schema, one message each, in schema
key order. -/
def gameSchemaErrors (g : GameInput) : List String :=
  [plataformaError g.plataforma,
   nomeError g.nome,
   isoDateFieldError "dataLancamento" g.dataLancamento,
   generoError g.genero,
   statusError g.status,
   tempoError g.tempo,
   isoDateFieldError "inicio" g.inicio,
   isoDateFieldError "fim" g.fim,
   notaError g.nota].filterMap id

/-- The details Joi actually reports: validation stops at the first
violation because gameSchema.validate runs with the default abortEarly,
so at most one message survives. -/
def joiValidateDetails (g : GameInput) : List String :=
  (gameSchemaErrors g).take 1

/-- Whether the schema accepts the body (no violation at all). -/
def schemaAccepts (g : GameInput) : Bool :=
  gameSchemaErrors g = []

/-- validateGame middleware: on a Joi error respond 400 with the mapped
messages and stop; otherwise call next. -/
def validateGame (g : GameInput) : Option (List String) :=
  match joiValidateDetails g with
  | [] => none
  | errs => some errs

structure HttpResponse where
  status : Nat
  errors : List String
  deriving Repr, DecidableEq

/-- The POST /games route: apiLimiter, checkAuth, validateGame, then the
handler that calls SheetsService.add and answers 201.  A validation
failure answers 400 before the handler runs, so no Sheets request is
issued. -/
def handleAddGame (st : SheetsState) (g : GameInput) :
    HttpResponse × SheetsState × List SheetsOp :=
  match validateGame g with
  | some errs => ({ status := 400, errors := errs }, st, [])
  | none =>
      let ops := SheetsService.add g
      ({ status := 201, errors := [] }, applySheetsOps st ops, ops)

/-! ## Spec-side definitions

These follow the wording of the specification (not the code) and exist to
be compared with the source embeddings above. -/

/-- Spec wording for C4: a cell needs quoting when it contains a comma, a
double quote, or a newline. -/
def specNeedsQuoting (s : String) : Bool :=
  s.toList.any (fun c => c == ',' || c == '"' || c == '\n')

/-- Spec wording for C4: double every embedded double quote. -/
def specDoubleQuotes (s : String) : String :=
  s.toList.foldr
    (fun c acc => (if c = '"' then "\"\"" else String.singleton c) ++ acc) ""

/-- Spec wording for C4: quote-wrap exactly the cells that need it. -/
def specCsvCell (s : String) : String :=
  if specNeedsQuoting s then "\"" ++ specDoubleQuotes s ++ "\"" else s

/-- Spec wording for C4: cells joined with commas, rows with newlines,
header row first. -/
def specCsvText (rows : List SheetRow) : String :=
  String.intercalate "\n"
    (rows.map (fun row => String.intercalate "," (row.map specCsvCell)))

/-- The claim reading of C3 for the nota field: a present numeric nota
keeps its value, only an omitted or empty one falls back to the default
empty cell. -/
def specExpectedNota : NotaInput → String
  | .omitted => ""
  | .nullv => ""
  | .empty => ""
  | .num n => toString n

/-- All two-way splits of a character list, for running the spec grammar
nondeterministically on concrete inputs. -/
def allSplits (cs : List Char) : List (List Char × List Char) :=
  (List.range (cs.length + 1)).map (fun i => (cs.take i, cs.drop i))

/-- Spec wording for C8, hour group of the written grammar (\d+h): a
nonempty digit run followed by a lowercase h, or nothing. -/
def specHourGroup (cs : List Char) : Bool :=
  cs.isEmpty ||
    (!cs.dropLast.isEmpty && cs.dropLast.all Char.isDigit && cs.getLast? == some 'h')

/-- Spec wording for C8, minute group of the written grammar (\d+m): a
nonempty digit run followed by a lowercase m, or nothing. -/
def specMinGroupStrict (cs : List Char) : Bool :=
  cs.isEmpty ||
    (!cs.dropLast.isEmpty && cs.dropLast.all Char.isDigit && cs.getLast? == some 'm')

/-- Spec wording for C8: the anchored grammar (\d+h)?\s*(\d+m)? as a
search over all decompositions. -/
def specTempoGrammar (s : String) : Bool :=
  (allSplits s.toList).any (fun p =>
    specHourGroup p.1 &&
      (allSplits p.2).any (fun q => q.1.all isJsSpace && specMinGroupStrict q.2))

/-- The acceptance condition claim C8 states: empty, or matching the
grammar while containing an h or an m. -/
def specTempoAccepted (s : String) : Bool :=
  s == "" ||
    (specTempoGrammar s && s.toList.any (fun c => c == 'h' || c == 'm'))

/-- A nonempty run of decimal digits. -/
def DigitRun (cs : List Char) : Prop :=
  cs ≠ [] ∧ ∀ c ∈ cs, c.isDigit = true

/-- What the optional group (\d+h)? can consume under the ignore-case
flag. -/
def HourGroup (cs : List Char) : Prop :=
  cs = [] ∨ ∃ ds c, DigitRun ds ∧ (c = 'h' ∨ c = 'H') ∧ cs = ds ++ [c]

/-- What the optional group (\d+m?)? can consume under the ignore-case
flag. -/
def MinGroup (cs : List Char) : Prop :=
  cs = [] ∨ ∃ ds, DigitRun ds ∧
    (cs = ds ∨ ∃ c, (c = 'm' ∨ c = 'M') ∧ cs = ds ++ [c])

/-- What \s* can consume. -/
def SpaceRun (cs : List Char) : Prop :=
  ∀ c ∈ cs, isJsSpace c = true

/-- Declarative anchored semantics of the regex the code actually uses:
some decomposition into hour group, whitespace, and minute group covers
the whole string. -/
def TempoRegexMatch (s : String) : Prop :=
  ∃ g1 sp g2, HourGroup g1 ∧ SpaceRun sp ∧ MinGroup g2 ∧
    s.toList = g1 ++ sp ++ g2

/-! ## Example fixtures -/

def exHeader : SheetRow :=
  ["Plataforma", "Nome", "Data de Lançamento", "Gênero", "Status",
   "Tempo", "Início", "Fim", "Nota"]

def exRowA : SheetRow := ["PC", "A", "", "", "", "", "", "", ""]

def exRowB : SheetRow := ["PS5", "B", "", "", "", "", "", "", ""]

def exTwoRows : SheetsState :=
  { header := exHeader, data := [exRowA, exRowB], sheetExists := true }

def exEmptyTable : SheetsState :=
  { header := exHeader, data := [], sheetExists := true }

/-- A schema-accepted body whose nota is the number 0. -/
def exNotaZeroInput : GameInput :=
  { plataforma := some "PC", nome := some "Alpha", dataLancamento := none,
    genero := none, status := none, tempo := none, inicio := none,
    fim := none, nota := .num 0 }

/-- A body violating two constraints at once: plataforma and nome are both
missing. -/
def exTwoViolations : GameInput :=
  { plataforma := none, nome := none, dataLancamento := none,
    genero := none, status := none, tempo := none, inicio := none,
    fim := none, nota := .omitted }

/-! ## Helper lemmas -/

theorem length_mapRowsWithIndex (f : Nat → SheetRow → GameRecord) (s : Nat)
    (l : List SheetRow) : (mapRowsWithIndex f s l).length = l.length := by
  induction l generalizing s with
  | nil => rfl
  | cons a t ih => simp [mapRowsWithIndex, ih]

theorem getElem?_mapRowsWithIndex (f : Nat → SheetRow → GameRecord) (s : Nat)
    (l : List SheetRow) (i : Nat) :
    (mapRowsWithIndex f s l)[i]? = (l[i]?).map (f (s + i)) := by
  induction l generalizing s i with
  | nil => simp [mapRowsWithIndex]
  | cons a t ih =>
    cases i with
    | zero => simp [mapRowsWithIndex]
    | succ j =>
      simp only [mapRowsWithIndex, List.getElem?_cons_succ]
      rw [ih]
      exact congrArg (fun n => (t[j]?).map (f n)) (by omega)

theorem mapRowsWithIndex_append (f : Nat → SheetRow → GameRecord) (s : Nat)
    (l₁ l₂ : List SheetRow) :
    mapRowsWithIndex f s (l₁ ++ l₂) =
      mapRowsWithIndex f s l₁ ++ mapRowsWithIndex f (s + l₁.length) l₂ := by
  induction l₁ generalizing s with
  | nil => simp [mapRowsWithIndex]
  | cons a t ih =>
    show f s a :: mapRowsWithIndex f (s + 1) (t ++ l₂)
        = (f s a :: mapRowsWithIndex f (s + 1) t) ++
            mapRowsWithIndex f (s + (a :: t).length) l₂
    rw [ih, List.cons_append]
    simp only [List.length_cons]
    rw [show s + 1 + t.length = s + (t.length + 1) by omega]

theorem getAll_length (st : SheetsState) :
    (SheetsService.getAll st).length = st.data.length :=
  length_mapRowsWithIndex _ 0 st.data

theorem getAll_getElem? (st : SheetsState) (i : Nat) :
    (SheetsService.getAll st)[i]? =
      (st.data[i]?).map (fun row => rowToRecord (i + 2) row) := by
  unfold SheetsService.getAll
  rw [getElem?_mapRowsWithIndex]
  simp

/-- Effect of the successful delete trace on the sheet: the header stays,
the data row at offset k disappears. -/
theorem applyDelete_data (st : SheetsState) (k : Nat) :
    applySheetsOps st
        [SheetsOp.valuesGet, SheetsOp.spreadsheetGet,
         SheetsOp.deleteRows (k + 1) (k + 2)] =
      { st with data := st.data.take k ++ st.data.drop (k + 1) } := by
  simp [applySheetsOps, applySheetsOp, deleteDimensionRows]

/-- Filtering a key out of an association list makes lookups of that key
miss. -/
theorem lookup_filter_ne {α : Type} (key : String)
    (l : List (String × CacheEntry α)) :
    (l.filter (fun p => p.1 ≠ key)).lookup key = none := by
  induction l with
  | nil => rfl
  | cons a t ih =>
    obtain ⟨k, v⟩ := a
    by_cases h : k = key
    · simpa [List.filter, h] using ih
    · have hk : (key == k) = false := by simp [Ne.symm h]
      simp [List.filter, h, List.lookup, hk, ih]
      exact fun a b _ hne he => hne he.symm

/-- The quoting condition of the source is the any-based condition of the
spec. -/
theorem includes_eq_specNeedsQuoting (cell : Cell) :
    (includesChar cell ',' || includesChar cell '\n' || includesChar cell '"')
      = specNeedsQuoting cell := by
  apply Bool.eq_iff_iff.mpr
  simp only [includesChar, specNeedsQuoting, Bool.or_eq_true, List.contains,
    List.elem_iff, List.any_eq_true, beq_iff_eq]
  constructor
  · rintro ((h | h) | h)
    · exact ⟨',', h, by simp⟩
    · exact ⟨'\n', h, by simp⟩
    · exact ⟨'"', h, by simp⟩
  · rintro ⟨c, hc, (rfl | rfl) | rfl⟩
    · exact Or.inl (Or.inl hc)
    · exact Or.inr hc
    · exact Or.inl (Or.inr hc)

/-- The character-level quote doubling of the source equals the
append-based doubling of the spec. -/
theorem doubleQuotes_eq_spec (s : String) : doubleQuotes s = specDoubleQuotes s := by
  unfold doubleQuotes specDoubleQuotes
  induction s.toList with
  | nil => rfl
  | cons c t ih =>
    simp only [List.flatMap_cons, List.foldr_cons, ← ih]
    by_cases h : c = '"'
    · subst h; rfl
    · simp only [if_neg h]
      rfl

theorem escapeCell_eq_spec (cell : Cell) : escapeCell cell = specCsvCell cell := by
  unfold escapeCell specCsvCell
  rw [includes_eq_specNeedsQuoting, doubleQuotes_eq_spec]

/-- Membership in the trace of getToken: the only request it can issue is
the credential exchange. -/
theorem getToken_trace (st : IGDBState) (now : Int) (o : ExchangeOutcome) :
    ∀ r ∈ (IGDBService.getToken st now o).2.2, r = NetRequest.tokenExchange := by
  unfold IGDBService.getToken
  by_cases h : tokenIsFresh st now
  · simp [h]
  · cases o <;> simp [h]

/-- After a miss of cacheGet the returned state holds nothing under the
key. -/
theorem cacheGet_miss_lookup {α : Type} (st : CacheState α) (now : Int) (key : String)
    (h : (cacheGet st now key).1 = none) :
    ((cacheGet st now key).2).entries.lookup key = none := by
  unfold cacheGet at h ⊢
  cases hl : st.entries.lookup key with
  | none => simp [hl]
  | some e =>
    by_cases hexp : e.t ≠ 0 ∧ e.t < now
    · simpa [hl, hexp] using lookup_filter_ne key st.entries
    · simp [hl, hexp] at h

/-! ## Claims -/

/-- C2: delete first re-reads the data range and fails with the not-found
error exactly when the zero-based offset gameId - 2 lies outside
[0, rowCount) for the re-read row count (for natural gameId the negative
case is gameId < 2); consequently, after a successful delete has shrunk
the table below the id, repeating delete with the same id fails with the
not-found error. -/
theorem C2_delete_notFound (st : SheetsState) (gameId : Nat) :
    ((SheetsService.delete st gameId).1 = .error .notFound ↔
        ¬(2 ≤ gameId ∧ gameId - 2 < st.data.length)) ∧
    (∀ st' : SheetsState,
        (SheetsService.delete st gameId).1 = .ok () →
        st' = applySheetsOps st (SheetsService.delete st gameId).2 →
        st'.data.length ≤ gameId - 2 →
        (SheetsService.delete st' gameId).1 = .error .notFound) := by
  constructor
  · unfold SheetsService.delete
    by_cases h : 2 ≤ gameId ∧ gameId - 2 < st.data.length
    · by_cases hs : st.sheetExists <;> simp [h, hs]
    · simp [h]
  · intro st' _hok _hst' hlen
    unfold SheetsService.delete
    have hno : ¬(2 ≤ gameId ∧ gameId - 2 < st'.data.length) := by
      rintro ⟨h2, hlt⟩; omega
    simp [hno]

/-- C2 witness: in the two-row table, deleting id 3 succeeds and shrinks
the table to one row, after which deleting id 3 again fails with the
not-found error. -/
theorem C2_delete_notFound_witness :
    (SheetsService.delete
        (applySheetsOps exTwoRows (SheetsService.delete exTwoRows 3).2) 3).1
      = .error .notFound := by
  have h := C2_delete_notFound exTwoRows 3
  exact h.2 (applySheetsOps exTwoRows (SheetsService.delete exTwoRows 3).2)
    rfl rfl (by decide)

/-- C10: whenever delete fails — offset out of range or sheet missing from
the metadata — its trace contains no mutating request, so replaying the
trace leaves the table unchanged; on success the two validating reads
strictly precede the single row-deletion request. -/
theorem C10_delete_failure_mutates_nothing (st : SheetsState) (gameId : Nat) :
    (∀ e : SheetsError, (SheetsService.delete st gameId).1 = .error e →
        (∀ op ∈ (SheetsService.delete st gameId).2, op.mutates = false) ∧
        applySheetsOps st (SheetsService.delete st gameId).2 = st) ∧
    ((SheetsService.delete st gameId).1 = .ok () →
        (SheetsService.delete st gameId).2 =
          [.valuesGet, .spreadsheetGet, .deleteRows (gameId - 1) gameId]) := by
  unfold SheetsService.delete
  by_cases h : 2 ≤ gameId ∧ gameId - 2 < st.data.length
  · by_cases hs : st.sheetExists
    · simp [h, hs]
    · simp [h, hs, SheetsOp.mutates, applySheetsOps, applySheetsOp]
  · simp [h, SheetsOp.mutates, applySheetsOps, applySheetsOp]

/-- C10 witness: deleting id 9 from the two-row table fails and replaying
its trace leaves the table as it was. -/
theorem C10_witness :
    applySheetsOps exTwoRows (SheetsService.delete exTwoRows 9).2 = exTwoRows := by
  have h := C10_delete_failure_mutates_nothing exTwoRows 9
  exact (h.1 SheetsError.notFound rfl).2

/-- C4: exportAsCSV serializes the header row first and then every data
row, quoting a cell and doubling its embedded quotes exactly when it
contains a comma, a double quote or a newline, joining cells with commas
and rows with a newline; in particular the cell
Game, "Deluxe" is emitted as "Game, ""Deluxe""". -/
theorem C4_exportAsCSV (st : SheetsState) :
    SheetsService.exportAsCSV st = specCsvText (st.header :: st.data) ∧
    escapeCell "Game, \"Deluxe\"" = "\"Game, \"\"Deluxe\"\"\"" := by
  refine ⟨?_, by decide⟩
  have hrow : ∀ row : SheetRow,
      rowToCsv row = String.intercalate "," (row.map specCsvCell) := by
    intro row
    unfold rowToCsv
    exact congrArg _ (List.map_congr_left (fun cell _ => escapeCell_eq_spec cell))
  unfold SheetsService.exportAsCSV exportRows specCsvText
  exact congrArg _ (List.map_congr_left (fun row _ => hrow row))

/-- C5: with a stored nonempty token and the clock before the stored
expiry, getToken answers from the cache without any exchange; otherwise a
single exchange runs and, on success, the token is stored with expiry
now + expires_in (seconds, scaled to the millisecond clock) and
returned.  Hence a second call while the first token is still fresh
issues no further request — one exchange across both calls — and a call
at or after the expiry performs a second exchange. -/
theorem C5_getToken_caching :
    (∀ (st : IGDBState) (now : Int) (o : ExchangeOutcome) (t : String) (e : Int),
        st.token = some t → t ≠ "" → st.tokenExpiry = some e → now < e →
        IGDBService.getToken st now o = (.ok t, st, [])) ∧
    (∀ (st : IGDBState) (now : Int) (tok : String) (life : Int),
        tokenIsFresh st now = false →
        IGDBService.getToken st now (.success tok life) =
          (.ok tok,
           { token := some tok, tokenExpiry := some (now + life * 1000) },
           [.tokenExchange])) ∧
    (∀ (st : IGDBState) (now₁ now₂ : Int) (tok : String) (life : Int)
        (o₂ : ExchangeOutcome),
        tokenIsFresh st now₁ = false → tok ≠ "" → now₂ < now₁ + life * 1000 →
        IGDBService.getToken
            (IGDBService.getToken st now₁ (.success tok life)).2.1 now₂ o₂ =
          (.ok tok, (IGDBService.getToken st now₁ (.success tok life)).2.1, []) ∧
        ((IGDBService.getToken st now₁ (.success tok life)).2.2.length +
            (IGDBService.getToken
              (IGDBService.getToken st now₁ (.success tok life)).2.1 now₂ o₂).2.2.length)
          = 1) ∧
    (∀ (st : IGDBState) (now₁ now₃ : Int) (tok : String) (life : Int)
        (o₃ : ExchangeOutcome),
        tokenIsFresh st now₁ = false → now₁ + life * 1000 ≤ now₃ →
        (IGDBService.getToken
            (IGDBService.getToken st now₁ (.success tok life)).2.1 now₃ o₃).2.2
          = [.tokenExchange]) := by
  have fresh_true : ∀ (st : IGDBState) (now : Int) (t : String) (e : Int),
      st.token = some t → t ≠ "" → st.tokenExpiry = some e → now < e →
      tokenIsFresh st now = true := by
    intro st now t e ht hne he hlt
    simp [tokenIsFresh, ht, he, hne, hlt]
  refine ⟨?_, ?_, ?_, ?_⟩
  · intro st now o t e ht hne he hlt
    unfold IGDBService.getToken
    rw [if_pos (fresh_true st now t e ht hne he hlt)]
    rw [ht]
    rfl
  · intro st now tok life hstale
    unfold IGDBService.getToken
    rw [if_neg (by simp [hstale])]
  · intro st now₁ now₂ tok life o₂ hstale hne hlt
    have h1 : IGDBService.getToken st now₁ (.success tok life) =
        (.ok tok, { token := some tok, tokenExpiry := some (now₁ + life * 1000) },
         [.tokenExchange]) := by
      unfold IGDBService.getToken
      rw [if_neg (by simp [hstale])]
    rw [h1]
    have h2 : IGDBService.getToken
        ({ token := some tok, tokenExpiry := some (now₁ + life * 1000) } : IGDBState)
        now₂ o₂ = (.ok tok,
          ({ token := some tok, tokenExpiry := some (now₁ + life * 1000) } : IGDBState),
          []) := by
      unfold IGDBService.getToken
      rw [if_pos (by simp [tokenIsFresh, hne, hlt])]
      rfl
    rw [h2]
    exact ⟨rfl, rfl⟩
  · intro st now₁ now₃ tok life o₃ hstale hge
    have h1 : IGDBService.getToken st now₁ (.success tok life) =
        (.ok tok, { token := some tok, tokenExpiry := some (now₁ + life * 1000) },
         [.tokenExchange]) := by
      unfold IGDBService.getToken
      rw [if_neg (by simp [hstale])]
    rw [h1]
    unfold IGDBService.getToken
    rw [if_neg (by simp [tokenIsFresh]; omega)]
    cases o₃ <;> rfl

/-- C5 witness: a fresh empty client fetches once at time 0 for a
3600-second token, answers from the cache at time 1000, and exchanges
again at the expiry instant 3600000. -/
theorem C5_getToken_caching_witness :
    IGDBService.getToken
        (IGDBService.getToken ⟨none, none⟩ 0 (.success "tk" 3600)).2.1 1000
        (.failure "down") =
      (.ok "tk", (IGDBService.getToken ⟨none, none⟩ 0 (.success "tk" 3600)).2.1, []) ∧
    (IGDBService.getToken
        (IGDBService.getToken ⟨none, none⟩ 0 (.success "tk" 3600)).2.1 3600000
        (.success "tk2" 60)).2.2 = [.tokenExchange] := by
  refine ⟨(C5_getToken_caching.2.2.1 ⟨none, none⟩ 0 1000 "tk" 3600 (.failure "down")
    (by decide) (by decide) (by decide)).1, ?_⟩
  exact C5_getToken_caching.2.2.2 ⟨none, none⟩ 0 3600000 "tk" 3600 (.success "tk2" 60)
    (by decide) (by decide)

/-- C6: searchGames rejects an empty, null, absent or non-string query
with the validation error before issuing any network request and without
touching the token state; for an accepted query every request in the
trace is either the token exchange or the search POST whose body is the
fixed template with the quote-escaped query interpolated; concretely, the
query Zelda "HD" produces the body with Zelda \"HD\" inside. -/
theorem C6_searchGames_validation (α : Type) :
    (∀ (st : IGDBState) (q : QueryInput) (now : Int) (ex : ExchangeOutcome)
        (up : Except String α),
        queryOk q = false →
        IGDBService.searchGames st q now ex up =
          (.error (.validation "Query deve ser uma string não vazia"), st, [])) ∧
    (∀ (st : IGDBState) (s : String) (now : Int) (ex : ExchangeOutcome)
        (up : Except String α),
        s ≠ "" →
        ∀ r ∈ (IGDBService.searchGames st (.str s) now ex up).2.2,
          r = NetRequest.tokenExchange ∨
            r = NetRequest.searchPost (igdbQueryBody (escapeQuery s))) ∧
    escapeQuery "Zelda \"HD\"" = "Zelda \\\"HD\\\"" := by
  refine ⟨?_, ?_, by decide⟩
  · intro st q now ex up hbad
    cases q with
    | str s =>
        have hs : s = "" := by simpa [queryOk] using hbad
        subst hs
        rfl
    | undef => rfl
    | nullv => rfl
    | nonString => rfl
  · intro st s now ex up hne r hr
    simp only [IGDBService.searchGames, if_neg hne] at hr
    rcases hgt : IGDBService.getToken st now ex with ⟨res, st', reqs⟩
    rw [hgt] at hr
    have htrace : ∀ x ∈ reqs, x = NetRequest.tokenExchange := by
      have := getToken_trace st now ex
      rw [hgt] at this
      exact this
    cases res with
    | ok tok =>
        cases up with
        | ok payload =>
            simp only [List.mem_append, List.mem_singleton] at hr
            rcases hr with hmem | hpost
            · exact Or.inl (htrace r hmem)
            · exact Or.inr hpost
        | error m =>
            simp only [List.mem_append, List.mem_singleton] at hr
            rcases hr with hmem | hpost
            · exact Or.inl (htrace r hmem)
            · exact Or.inr hpost
    | error m =>
        exact Or.inl (htrace r hr)

/-- C6 witness: a null query is rejected with no request issued, and a
request trace for the query Zelda contains only the exchange and the
templated search POST. -/
theorem C6_searchGames_validation_witness :
    IGDBService.searchGames ⟨none, none⟩ .nullv 0
        (.success "tk" 60) (Except.ok (7 : Nat) : Except String Nat) =
      (.error (.validation "Query deve ser uma string não vazia"), ⟨none, none⟩, []) := by
  exact (C6_searchGames_validation Nat).1 ⟨none, none⟩ .nullv 0
    (.success "tk" 60) (Except.ok 7) (by decide)

/-- C7: getOrFetch serves a live cache entry without running the fetcher;
on a missing key it runs the fetcher exactly once and stores a
successful value under the key with the requested ttl; a fetcher failure
is propagated and nothing ends up stored under the key. -/
theorem C7_getOrFetch (α ε : Type) :
    (∀ (st : CacheState α) (now : Int) (key : String) (fr : Except ε α)
        (ttl : Option Int) (e : CacheEntry α),
        st.entries.lookup key = some e → (e.t = 0 ∨ now ≤ e.t) →
        CacheService.getOrFetch st now key fr ttl = (.ok e.value, st, 0)) ∧
    (∀ (st : CacheState α) (now : Int) (key : String) (v : α) (ttl : Option Int),
        st.entries.lookup key = none →
        CacheService.getOrFetch st now key (Except.ok v : Except ε α) ttl =
          (.ok v, cacheSet st now key v ttl, 1) ∧
        (cacheSet st now key v ttl).entries.lookup key =
          some ⟨v, ttlToExpiry now (ttl.getD st.stdTTL)⟩) ∧
    (∀ (st : CacheState α) (now : Int) (key : String) (err : ε) (ttl : Option Int),
        (cacheGet st now key).1 = none →
        (CacheService.getOrFetch st now key (Except.error err) ttl).1 = .error err ∧
        ((CacheService.getOrFetch st now key (Except.error err) ttl).2.1).entries.lookup key
          = none ∧
        (CacheService.getOrFetch st now key (Except.error err) ttl).2.2 = 1) := by
  refine ⟨?_, ?_, ?_⟩
  · intro st now key fr ttl e hl hlive
    have hnot : ¬(e.t ≠ 0 ∧ e.t < now) := by
      rintro ⟨h0, hlt⟩
      rcases hlive with h | h
      · exact h0 h
      · omega
    have hget : cacheGet st now key = (some e.value, st) := by
      unfold cacheGet
      simp only [hl]
      rw [if_neg hnot]
    unfold CacheService.getOrFetch
    simp only [hget]
  · intro st now key v ttl hl
    have hget : cacheGet st now key = (none, st) := by
      unfold cacheGet
      simp only [hl]
    constructor
    · unfold CacheService.getOrFetch
      simp only [hget]
    · unfold cacheSet
      simp [List.lookup]
  · intro st now key err ttl hmiss
    rcases hget : cacheGet st now key with ⟨res, st₂⟩
    have hres : res = none := by rw [hget] at hmiss; exact hmiss
    subst hres
    have hl2 : st₂.entries.lookup key = none := by
      have := cacheGet_miss_lookup st now key (by rw [hget])
      rw [hget] at this
      exact this
    unfold CacheService.getOrFetch
    simp only [hget]
    exact ⟨trivial, hl2, trivial⟩

/-- C7 witness: with an entry for k that never expires the fetcher does
not run; with k absent a failing fetcher propagates and stores nothing. -/
theorem C7_getOrFetch_witness :
    CacheService.getOrFetch (⟨300, [("k", ⟨42, 0⟩)]⟩ : CacheState Nat) 5 "k"
        (Except.error "boom" : Except String Nat) (some 60) =
      (.ok 42, ⟨300, [("k", ⟨42, 0⟩)]⟩, 0) ∧
    (CacheService.getOrFetch (⟨300, []⟩ : CacheState Nat) 5 "j"
        (Except.error "boom" : Except String Nat) (some 60)).1 = .error "boom" := by
  constructor
  · exact (C7_getOrFetch Nat String).1 ⟨300, [("k", ⟨42, 0⟩)]⟩ 5 "k"
      (Except.error "boom") (some 60) ⟨42, 0⟩ (by simp [List.lookup]) (Or.inl rfl)
  · exact ((C7_getOrFetch Nat String).2.2 ⟨300, []⟩ 5 "j" "boom" (some 60) rfl).1

/-- C9 counterexample: a body missing both plataforma and nome violates
two schema constraints, yet the response carries only the first message,
because gameSchema.validate runs with the Joi default abortEarly. -/
theorem C9_counterexample :
    gameSchemaErrors exTwoViolations =
      ["\"plataforma\" is required", "\"nome\" is required"] ∧
    (handleAddGame exEmptyTable exTwoViolations).1.errors =
      ["\"plataforma\" is required"] := by
  constructor <;> rfl

/-- C9 amended: on any schema violation the validation step responds 400
with the message list Joi reports — under the default abortEarly this is
exactly the first violated constraint, not one message per violation —
and the handler never runs, so no Sheets request is attempted and the
table is untouched. -/
theorem C9_validation_first_error (st : SheetsState) (g : GameInput)
    (h : gameSchemaErrors g ≠ []) :
    (handleAddGame st g).1.status = 400 ∧
    (handleAddGame st g).1.errors = (gameSchemaErrors g).take 1 ∧
    (handleAddGame st g).2.1 = st ∧
    (handleAddGame st g).2.2 = [] := by
  unfold handleAddGame validateGame joiValidateDetails
  cases herr : gameSchemaErrors g with
  | nil => exact absurd herr h
  | cons a t => simp

/-- C9 witness: the doubly-invalid body is rejected with status 400, one
message, and no Sheets request. -/
theorem C9_validation_first_error_witness :
    (handleAddGame exEmptyTable exTwoViolations).1.status = 400 ∧
    (handleAddGame exEmptyTable exTwoViolations).2.2 = [] := by
  have h := C9_validation_first_error exEmptyTable exTwoViolations (by decide)
  exact ⟨h.1, h.2.2.2⟩

/-- C3 counterexample: the body with nota equal to the number 0 passes
the schema, but add stores the empty cell for it (0 is falsy in JS, so
gameData.nota or-else the empty string discards it), while the claim
requires the present field to keep its value 0. -/
theorem C3_counterexample :
    schemaAccepts exNotaZeroInput = true ∧
    (SheetsService.getAll
        (applySheetsOps exEmptyTable (SheetsService.add exNotaZeroInput))).map
        GameRecord.nota = [""] ∧
    specExpectedNota exNotaZeroInput.nota = "0" ∧
    ("" : String) ≠ "0" := by
  refine ⟨rfl, rfl, rfl, by decide⟩

/-- C3 amended: for every schema-accepted body, add followed by getAll
appends exactly one record after the unchanged existing records, whose
fields are the input fields with the JS falsy-or-else defaults applied:
omitted and empty optional strings become the empty string, an omitted
status becomes Não iniciado, and nota is stored as its decimal value
except that 0, null, and empty are all stored as the empty string. -/
theorem C3_add_appends (st : SheetsState) (g : GameInput)
    (h : schemaAccepts g = true) :
    SheetsService.getAll (applySheetsOps st (SheetsService.add g)) =
      SheetsService.getAll st ++
        [{ id := st.data.length + 2,
           plataforma := g.plataforma.getD "",
           nome := g.nome.getD "",
           dataLancamento := jsOr g.dataLancamento "",
           genero := jsOr g.genero "",
           status := jsOr g.status "Não iniciado",
           tempo := jsOr g.tempo "",
           inicio := jsOr g.inicio "",
           fim := jsOr g.fim "",
           nota := notaCell g.nota }] := by
  show SheetsService.getAll
      (applySheetsOps st [SheetsOp.appendRow (buildRow g)]) = _
  have hpost : applySheetsOps st [SheetsOp.appendRow (buildRow g)] =
      { st with data := st.data ++ [buildRow g] } := rfl
  rw [hpost]
  unfold SheetsService.getAll
  rw [mapRowsWithIndex_append]
  simp [mapRowsWithIndex, rowToRecord, buildRow, SheetsService.getAll]

/-- C3 witness: adding the accepted nota-zero body to the empty table
yields exactly one record with the stored defaults. -/
theorem C3_add_appends_witness :
    SheetsService.getAll (applySheetsOps exEmptyTable (SheetsService.add exNotaZeroInput)) =
      [{ id := 2, plataforma := "PC", nome := "Alpha", dataLancamento := "",
         genero := "", status := "Não iniciado", tempo := "", inicio := "",
         fim := "", nota := "" }] := by
  have h := C3_add_appends exEmptyTable exNotaZeroInput (by decide)
  exact h.trans (by decide)

/-- C1: for a table of n data rows and any 2 ≤ gameId ≤ n + 1, delete
succeeds, and reloading with getAll yields n - 1 records in table order:
records before the deleted offset keep their id and all 9 fields, the
record at the deleted offset is gone, and every later record reappears
one position earlier with its id decremented by exactly one and its
fields unchanged. -/
theorem C1_delete_renumbers (st : SheetsState) (gameId : Nat)
    (hsheet : st.sheetExists = true) (hlo : 2 ≤ gameId)
    (hhi : gameId ≤ st.data.length + 1) :
    (SheetsService.delete st gameId).1 = .ok () ∧
    (SheetsService.getAll
        (applySheetsOps st (SheetsService.delete st gameId).2)).length
      = st.data.length - 1 ∧
    (∀ i, i + 2 < gameId →
      (SheetsService.getAll
          (applySheetsOps st (SheetsService.delete st gameId).2))[i]?
        = (SheetsService.getAll st)[i]?) ∧
    (∀ i, gameId ≤ i + 2 → i < st.data.length - 1 →
      (SheetsService.getAll
          (applySheetsOps st (SheetsService.delete st gameId).2))[i]?
        = ((SheetsService.getAll st)[i + 1]?).map
            (fun r => { r with id := r.id - 1 })) := by
  obtain ⟨k, rfl⟩ : ∃ k, gameId = k + 2 := ⟨gameId - 2, by omega⟩
  have hk : k < st.data.length := by omega
  have hguard : 2 ≤ k + 2 ∧ k + 2 - 2 < st.data.length := by
    constructor
    · omega
    · simpa using hk
  have hdel : SheetsService.delete st (k + 2) =
      (.ok (), [.valuesGet, .spreadsheetGet,
        .deleteRows (k + 2 - 1) (k + 2)]) := by
    unfold SheetsService.delete
    rw [if_pos hguard, hsheet]
    simp
  have hidx : k + 2 - 1 = k + 1 := by omega
  rw [hidx] at hdel
  rw [hdel]
  rw [applyDelete_data]
  refine ⟨rfl, ?_, ?_, ?_⟩
  · rw [getAll_length]
    simp only [List.length_append, List.length_take, List.length_drop]
    omega
  · intro i hi
    rw [getAll_getElem?, getAll_getElem?]
    have hik : i < k := by omega
    show (st.data.take k ++ st.data.drop (k + 1))[i]?.map _ = _
    rw [List.getElem?_append_left (by simp; omega),
      List.getElem?_take_of_lt hik]
  · intro i hge hi
    rw [getAll_getElem?, getAll_getElem?]
    have hki : k ≤ i := by omega
    show (st.data.take k ++ st.data.drop (k + 1))[i]?.map _ = _
    rw [List.getElem?_append_right (by simp; omega), List.getElem?_drop]
    have harith : k + 1 + (i - (st.data.take k).length) = i + 1 := by
      simp only [List.length_take]
      omega
    rw [harith]
    cases st.data[i + 1]? with
    | none => rfl
    | some row => simp [rowToRecord]

/-- C1 witness: deleting id 2 from the two-row table succeeds and the
reloaded record at position 0 is the former second row under id 2. -/
theorem C1_delete_renumbers_witness :
    (SheetsService.delete exTwoRows 2).1 = .ok () ∧
    (SheetsService.getAll
        (applySheetsOps exTwoRows (SheetsService.delete exTwoRows 2).2)).length = 1 ∧
    (SheetsService.getAll
        (applySheetsOps exTwoRows (SheetsService.delete exTwoRows 2).2))[0]?
      = ((SheetsService.getAll exTwoRows)[1]?).map
          (fun r => { r with id := r.id - 1 }) := by
  have h := C1_delete_renumbers exTwoRows 2 rfl (by decide) (by decide)
  exact ⟨h.1, h.2.1, h.2.2.2 0 (by decide) (by decide)⟩

/-! ## Regex determinization lemmas for C8 -/

theorem takeWhile_eq_self_of_all {p : Char → Bool} {l : List Char}
    (h : ∀ c ∈ l, p c = true) : l.takeWhile p = l := by
  induction l with
  | nil => rfl
  | cons a t ih =>
    rw [List.takeWhile_cons_of_pos (h a (by simp))]
    rw [ih (fun c hc => h c (by simp [hc]))]

theorem dropWhile_eq_nil_of_all {p : Char → Bool} {l : List Char}
    (h : ∀ c ∈ l, p c = true) : l.dropWhile p = [] := by
  induction l with
  | nil => rfl
  | cons a t ih =>
    rw [List.dropWhile_cons_of_pos (h a (by simp))]
    exact ih (fun c hc => h c (by simp [hc]))

theorem takeWhile_append_stop {p : Char → Bool} {ds : List Char} (x : Char)
    (t : List Char) (hds : ∀ c ∈ ds, p c = true) (hx : p x = false) :
    (ds ++ x :: t).takeWhile p = ds := by
  rw [List.takeWhile_append_of_pos hds,
    List.takeWhile_cons_of_neg (by simp [hx])]
  exact List.append_nil ds

theorem dropWhile_append_stop {p : Char → Bool} {ds : List Char} (x : Char)
    (t : List Char) (hds : ∀ c ∈ ds, p c = true) (hx : p x = false) :
    (ds ++ x :: t).dropWhile p = x :: t := by
  rw [List.dropWhile_append_of_pos hds,
    List.dropWhile_cons_of_neg (by simp [hx])]

theorem isJsSpace_eq_false_of_isDigit {c : Char} (h : c.isDigit = true) :
    isJsSpace c = false := by
  cases hs : isJsSpace c with
  | false => rfl
  | true =>
    exfalso
    have hmem : c ∈ jsWhitespaceChars := by
      unfold isJsSpace at hs
      simpa [List.contains, List.elem_iff] using hs
    have hall : ∀ x ∈ jsWhitespaceChars, x.isDigit = false := by decide
    rw [hall c hmem] at h
    exact Bool.false_ne_true h

theorem isDigit_eq_false_of_isJsSpace {c : Char} (h : isJsSpace c = true) :
    c.isDigit = false := by
  cases hd : c.isDigit with
  | false => rfl
  | true => exact absurd (isJsSpace_eq_false_of_isDigit hd) (by simp [h])

/-- Correctness of the trailing-group matcher against the declarative
minute group. -/
theorem matchMinGroupAtEnd_iff (l : List Char) :
    matchMinGroupAtEnd l = true ↔ MinGroup l := by
  constructor
  · intro h
    unfold matchMinGroupAtEnd at h
    have hsplit : l.takeWhile Char.isDigit ++ l.dropWhile Char.isDigit = l :=
      List.takeWhile_append_dropWhile Char.isDigit l
    cases htw : l.takeWhile Char.isDigit with
    | nil =>
        simp only [htw] at h
        left
        exact List.isEmpty_iff.mp h
    | cons d ds =>
        have hdig : ∀ c ∈ (d :: ds : List Char), c.isDigit = true := by
          intro c hc
          exact List.mem_takeWhile_imp (htw ▸ hc)
        cases hdw : l.dropWhile Char.isDigit with
        | nil =>
            right
            refine ⟨d :: ds, ⟨List.cons_ne_nil d ds, hdig⟩, Or.inl ?_⟩
            rw [htw, hdw] at hsplit
            simpa using hsplit.symm
        | cons c rest =>
            cases rest with
            | nil =>
                simp only [htw, hdw] at h
                right
                refine ⟨d :: ds, ⟨List.cons_ne_nil d ds, hdig⟩,
                  Or.inr ⟨c, of_decide_eq_true h, ?_⟩⟩
                rw [htw, hdw] at hsplit
                exact hsplit.symm
            | cons c2 rest2 =>
                simp only [htw, hdw] at h
                exact absurd h (by decide)
  · intro h
    rcases h with rfl | ⟨ds, ⟨hne, hdig⟩, hshape⟩
    · rfl
    · obtain ⟨d, ds', rfl⟩ : ∃ d ds', ds = d :: ds' := by
        cases ds with
        | nil => exact absurd rfl hne
        | cons d ds' => exact ⟨d, ds', rfl⟩
      rcases hshape with rfl | ⟨c, hc, rfl⟩
      · unfold matchMinGroupAtEnd
        rw [takeWhile_eq_self_of_all hdig, dropWhile_eq_nil_of_all hdig]
      · have hcd : Char.isDigit c = false := by
          rcases hc with rfl | rfl <;> decide
        unfold matchMinGroupAtEnd
        rw [takeWhile_append_stop c [] hdig hcd,
          dropWhile_append_stop c [] hdig hcd]
        simp [hc]

/-- The hour matcher always splits off a valid hour group. -/
theorem matchHourPrefix_decomp (l : List Char) :
    ∃ g1, HourGroup g1 ∧ l = g1 ++ matchHourPrefix l := by
  have hsplit : l.takeWhile Char.isDigit ++ l.dropWhile Char.isDigit = l :=
    List.takeWhile_append_dropWhile Char.isDigit l
  cases htw : l.takeWhile Char.isDigit with
  | nil =>
      have hm : matchHourPrefix l = l := by
        unfold matchHourPrefix
        simp only [htw]
      exact ⟨[], Or.inl rfl, by rw [hm, List.nil_append]⟩
  | cons d ds =>
      cases hdw : l.dropWhile Char.isDigit with
      | nil =>
          have hm : matchHourPrefix l = l := by
            unfold matchHourPrefix
            simp only [htw, hdw]
          exact ⟨[], Or.inl rfl, by rw [hm, List.nil_append]⟩
      | cons c rest =>
          by_cases hc : c = 'h' ∨ c = 'H'
          · have hm : matchHourPrefix l = rest := by
              unfold matchHourPrefix
              simp only [htw, hdw]
              rw [if_pos hc]
            have hdig : ∀ x ∈ (d :: ds : List Char), x.isDigit = true := by
              intro x hx
              exact List.mem_takeWhile_imp (htw ▸ hx)
            refine ⟨(d :: ds) ++ [c],
              Or.inr ⟨d :: ds, c, ⟨List.cons_ne_nil d ds, hdig⟩, hc, rfl⟩, ?_⟩
            rw [hm]
            rw [htw, hdw] at hsplit
            rw [← hsplit]
            simp
          · have hm : matchHourPrefix l = l := by
              unfold matchHourPrefix
              simp only [htw, hdw]
              rw [if_neg hc]
            exact ⟨[], Or.inl rfl, by rw [hm, List.nil_append]⟩

/-- When the input decomposes as whitespace before a minute group, the
hour matcher consumes nothing. -/
theorem matchHourPrefix_space_min (sp g2 : List Char) (hsp : SpaceRun sp)
    (hg2 : MinGroup g2) : matchHourPrefix (sp ++ g2) = sp ++ g2 := by
  cases sp with
  | cons s0 sp' =>
      have hs0 : Char.isDigit s0 = false :=
        isDigit_eq_false_of_isJsSpace (hsp s0 (by simp))
      have htw : ((s0 :: sp') ++ g2).takeWhile Char.isDigit = [] := by
        rw [List.cons_append]
        exact List.takeWhile_cons_of_neg (by simp [hs0])
      unfold matchHourPrefix
      simp only [htw]
  | nil =>
      simp only [List.nil_append]
      rcases hg2 with rfl | ⟨ds, ⟨hne, hdig⟩, hshape⟩
      · rfl
      · obtain ⟨d, ds', rfl⟩ : ∃ d ds', ds = d :: ds' := by
          cases ds with
          | nil => exact absurd rfl hne
          | cons d ds' => exact ⟨d, ds', rfl⟩
        rcases hshape with rfl | ⟨c, hc, rfl⟩
        · unfold matchHourPrefix
          simp only [takeWhile_eq_self_of_all hdig, dropWhile_eq_nil_of_all hdig]
        · have hcd : Char.isDigit c = false := by
            rcases hc with rfl | rfl <;> decide
          have hch : ¬(c = 'h' ∨ c = 'H') := by
            rcases hc with rfl | rfl <;> decide
          unfold matchHourPrefix
          simp only [takeWhile_append_stop c [] hdig hcd,
            dropWhile_append_stop c [] hdig hcd]
          rw [if_neg hch]

/-- A minute group survives the whitespace skip untouched. -/
theorem dropWhile_space_min (sp g2 : List Char) (hsp : SpaceRun sp)
    (hg2 : MinGroup g2) : (sp ++ g2).dropWhile isJsSpace = g2 := by
  rw [List.dropWhile_append_of_pos hsp]
  rcases hg2 with rfl | ⟨ds, ⟨hne, hdig⟩, hshape⟩
  · rfl
  · obtain ⟨d, ds', rfl⟩ : ∃ d ds', ds = d :: ds' := by
      cases ds with
      | nil => exact absurd rfl hne
      | cons d ds' => exact ⟨d, ds', rfl⟩
    have hd : isJsSpace d = false :=
      isJsSpace_eq_false_of_isDigit (hdig d (by simp))
    rcases hshape with rfl | ⟨c, hc, rfl⟩
    · exact List.dropWhile_cons_of_neg (by simp [hd])
    · exact List.dropWhile_cons_of_neg (by simp [hd])

/-- C8 counterexample: the bare digit run 30 is accepted by the schema
pattern (the code regex makes the m optional), while the acceptance
condition the claim states — empty, or matching (\d+h)?\s*(\d+m)? while
containing an h or an m — rejects it. -/
theorem C8_counterexample :
    tempoFieldAccepted "30" = true ∧ specTempoAccepted "30" = false := by
  constructor <;> rfl

/-- C8 amended: a tempo value is accepted by the field validation exactly
when it is empty or matches the code regex (\d+h)?\s*(\d+m?)? with the
ignore-case flag — the minute unit letter is optional and no h/m
presence is required, so bare digit runs such as 30 are accepted. -/
theorem C8_tempo_accepted_iff (s : String) :
    tempoFieldAccepted s = true ↔ (s = "" ∨ TempoRegexMatch s) := by
  constructor
  · intro h
    unfold tempoFieldAccepted at h
    rcases Bool.or_eq_true_iff.mp h with he | hp
    · exact Or.inl (of_decide_eq_true he)
    · right
      unfold tempoPattern at hp
      obtain ⟨g1, hg1, hsplit⟩ := matchHourPrefix_decomp s.toList
      refine ⟨g1, (matchHourPrefix s.toList).takeWhile isJsSpace,
        (matchHourPrefix s.toList).dropWhile isJsSpace, hg1,
        (fun c hc => List.mem_takeWhile_imp hc),
        (matchMinGroupAtEnd_iff _).mp hp, ?_⟩
      rw [List.append_assoc,
        List.takeWhile_append_dropWhile isJsSpace (matchHourPrefix s.toList)]
      exact hsplit
  · intro h
    rcases h with rfl | ⟨g1, sp, g2, hg1, hsp, hg2, hsplit⟩
    · rfl
    · unfold tempoFieldAccepted tempoPattern
      rw [hsplit, List.append_assoc]
      have hhour : matchHourPrefix (g1 ++ (sp ++ g2)) = sp ++ g2 := by
        rcases hg1 with rfl | ⟨ds, c, ⟨hne, hdig⟩, hc, rfl⟩
        · rw [List.nil_append]
          exact matchHourPrefix_space_min sp g2 hsp hg2
        · have hcd : Char.isDigit c = false := by
            rcases hc with rfl | rfl <;> decide
          obtain ⟨d, ds', rfl⟩ : ∃ d ds', ds = d :: ds' := by
            cases ds with
            | nil => exact absurd rfl hne
            | cons d ds' => exact ⟨d, ds', rfl⟩
          unfold matchHourPrefix
          rw [List.append_assoc, List.singleton_append]
          simp only [takeWhile_append_stop c (sp ++ g2) hdig hcd,
            dropWhile_append_stop c (sp ++ g2) hdig hcd]
          rw [if_pos hc]
      rw [hhour, dropWhile_space_min sp g2 hsp hg2]
      rw [(matchMinGroupAtEnd_iff g2).mpr hg2]
      simp

/-- C8 witness: 1h 30m is accepted, and the amended grammar exhibits the
decomposition; the bare run 45 is accepted as well. -/
theorem C8_tempo_accepted_iff_witness :
    tempoFieldAccepted "1h 30m" = true ∧ tempoFieldAccepted "45" = true := by
  constructor
  · exact (C8_tempo_accepted_iff "1h 30m").mpr
      (Or.inr ⟨['1', 'h'], [' '], ['3', '0', 'm'],
        Or.inr ⟨['1'], 'h', ⟨by decide, by decide⟩, Or.inl rfl, rfl⟩,
        (fun c hc => by simp only [List.mem_singleton] at hc; subst hc; rfl),
        Or.inr ⟨['3', '0'], ⟨by decide, by decide⟩,
          Or.inr ⟨'m', Or.inl rfl, rfl⟩⟩,
        rfl⟩)
  · exact (C8_tempo_accepted_iff "45").mpr
      (Or.inr ⟨[], [], ['4', '5'],
        Or.inl rfl, (fun c hc => absurd hc (List.not_mem_nil c)),
        Or.inr ⟨['4', '5'], ⟨by decide, by decide⟩, Or.inl rfl⟩, rfl⟩)

end GamesCatalog
